import Mathlib

/-!
Verification development for the `synaptic` metadata library
(`synaptic/meta.py`, `synaptic/pointer.py`).

The library runs inside a Maya session; we shallowly embed the slice of the
Maya scene graph that the code touches: nodes carry a stable uid (the
`MObject` pointer) and a mutable display name; dynamically added attributes,
string attribute values, message connections and the per-node reference
state are tracked explicitly.  Python exceptions are modelled with
`Except String`; `mc.*` calls that can raise are embedded as `Except`-valued
functions, the ones that cannot as plain functions.
-/

namespace Synaptic

/-- Values stored in the two data tiers.  The store is value-agnostic (any
JSON-serialisable value); we model a value by its serialised form. -/
abbrev JVal := String

/-- The text held by a string attribute, as seen through `json.loads`:
either a JSON object (the only thing `json.dumps(dict)` ever writes), or
text that is not valid JSON. -/
inductive Stored where
  | obj (entries : List (String × JVal))
  | notJson (blob : String)
deriving DecidableEq, Repr

/-- A plug, e.g. `node.attr` or `node.attr[3]`: a node uid, an attribute
name, and an optional multi-attribute element index. -/
structure Plug where
  node : Nat
  attr : String
  index : Option Nat
deriving DecidableEq, Repr

/-- The slice of the Maya scene state that `synaptic` reads and writes. -/
structure Scene where
  /-- Pairs of (uid, current display name), one per node; the uid plays the role
  of the `MObject` pointer and never changes, the name can be changed by
  a rename. -/
  nodes : List (Nat × String)
  /-- Dynamically added attributes, as (node uid, attribute name). -/
  declaredAttrs : List (Nat × String)
  /-- Values of string attributes, keyed by (node uid, attribute name). -/
  stringAttrs : List ((Nat × String) × Stored)
  /-- Message connections as (source plug, destination plug) pairs. -/
  connections : List (Plug × Plug)
  /-- Uids of nodes that are part of a file reference. -/
  referencedNodes : List Nat
  /-- Uid supply for node creation. -/
  nextUid : Nat
deriving DecidableEq, Repr

/-- Embeds `MSelectionList.add(name)` lookup: the first node with the given
display name (Maya names are unique in a well-formed scene). -/
def uidOf (s : Scene) (name : String) : Option Nat :=
  (s.nodes.find? (fun p => p.2 == name)).map (fun p => p.1)

/-- Embeds `MFnDependencyNode(pointer).name()`: the current display name of the
node with the given uid. -/
def nameOf (s : Scene) (uid : Nat) : String :=
  ((s.nodes.find? (fun p => p.1 == uid)).map (fun p => p.2)).getD ""

/-- Association-list lookup for string attribute values. -/
def lookupStringAttr : List ((Nat × String) × Stored) → (Nat × String) → Option Stored
  | [], _ => none
  | e :: rest, k => if e.1 = k then some e.2 else lookupStringAttr rest k

/-- Association-list insert/overwrite for string attribute values. -/
def putStringAttr : List ((Nat × String) × Stored) → (Nat × String) → Stored →
    List ((Nat × String) × Stored)
  | [], k, v => [(k, v)]
  | e :: rest, k, v => if e.1 = k then (k, v) :: rest else e :: putStringAttr rest k v

/-- Embeds `mc.objExists(f"{nodeName}.{attrName}")`: the node exists and carries
the attribute (every node has the built-in `message` attribute; the rest
are the dynamically added ones). -/
def objExistsAttr (s : Scene) (nodeName attrName : String) : Bool :=
  match uidOf s nodeName with
  | none => false
  | some u => attrName == "message" || s.declaredAttrs.contains (u, attrName)

/-- Embeds `mc.getAttr(f"{nodeName}.{attrName}")` for a string attribute; raises
if the node or the attribute value is missing. -/
def getAttrStoredE (s : Scene) (nodeName attrName : String) : Except String Stored :=
  match uidOf s nodeName with
  | none => .error ("No object matches name: " ++ nodeName)
  | some u =>
    match lookupStringAttr s.stringAttrs (u, attrName) with
    | some v => .ok v
    | none => .error ("getAttr failed on: " ++ nodeName ++ "." ++ attrName)

/-- Embeds `mc.setAttr(f"{nodeName}.{attrName}", text, type="string")`; raises if
the node or attribute does not exist. -/
def setAttrStoredE (s : Scene) (nodeName attrName : String) (v : Stored) :
    Except String Scene :=
  match uidOf s nodeName with
  | none => .error ("No object matches name: " ++ nodeName)
  | some u =>
    if s.declaredAttrs.contains (u, attrName) then
      .ok { s with stringAttrs := putStringAttr s.stringAttrs (u, attrName) v }
    else .error ("setAttr failed on: " ++ nodeName ++ "." ++ attrName)

/-- Embeds `mc.addAttr(nodeName, shortName=attrName, ...)`; raises if the node is
missing.  The attribute kind (bool / message / string / multi message)
does not affect the state we track beyond declaring the attribute. -/
def addAttr (s : Scene) (nodeName attrName : String) : Except String Scene :=
  match uidOf s nodeName with
  | none => .error ("No object matches name: " ++ nodeName)
  | some u => .ok { s with declaredAttrs := s.declaredAttrs ++ [(u, attrName)] }

/-- Embeds `mc.referenceQuery(name, isNodeReferenced=True)`; raises if the node is
missing. -/
def referenceQuery (s : Scene) (name : String) : Except String Bool :=
  match uidOf s name with
  | none => .error ("No object matches name: " ++ name)
  | some u => .ok (s.referencedNodes.contains u)

/-- Embeds `mc.createNode("network", name="SYNAPTIC_METANODE#", skipSelect=True)`:
Maya replaces the trailing `#` with a number that makes the created name
unique in the scene; we take the fresh uid as that number.  Returns the
new scene and the created node's name. -/
def createNode (s : Scene) : Scene × String :=
  let name := "SYNAPTIC_METANODE" ++ toString s.nextUid
  ({ s with nodes := s.nodes ++ [(s.nextUid, name)], nextUid := s.nextUid + 1 }, name)

/-- Embeds `mc.connectAttr(f"{srcNode}.{srcAttr}", f"{dstNode}.{dstAttr}")`
(no `force`, unindexed destination): raises if a node is missing or the
destination is already connected. -/
def connectAttrPlain (s : Scene) (srcNode srcAttr dstNode dstAttr : String) :
    Except String Scene :=
  match uidOf s srcNode, uidOf s dstNode with
  | some su, some du =>
    let dst : Plug := ⟨du, dstAttr, none⟩
    if s.connections.any (fun c => c.2 == dst) then
      .error ("already connected: " ++ dstNode ++ "." ++ dstAttr)
    else
      .ok { s with connections := s.connections ++ [(⟨su, srcAttr, none⟩, dst)] }
  | _, _ => .error ("connectAttr: missing node")

/-- Embeds `mc.connectAttr(f"{srcNode}.{srcAttr}", f"{dstNode}.{dstAttr}[{idx}]",
force=True)`: any existing input of the destination element plug is
disconnected first, then the new connection is appended. -/
def connectAttrForce (s : Scene) (srcNode srcAttr dstNode dstAttr : String)
    (idx : Nat) : Except String Scene :=
  match uidOf s srcNode, uidOf s dstNode with
  | some su, some du =>
    let dst : Plug := ⟨du, dstAttr, some idx⟩
    .ok { s with connections :=
      s.connections.filter (fun c => !(c.2 == dst)) ++ [(⟨su, srcAttr, none⟩, dst)] }
  | _, _ => .error ("connectAttr: missing node")

/-- Embeds `mc.disconnectAttr(src, dst)`: removes the connection from the source
plug to the destination plug. -/
def disconnectAttr (s : Scene) (src dst : Plug) : Scene :=
  { s with connections := s.connections.filter (fun c => !(c == (src, dst))) }

/-- The host application's rename operation (external collaborator, spec
section 4.1): changes a node's display name, leaving its uid intact. -/
def renameNode (s : Scene) (uid : Nat) (newName : String) : Scene :=
  { s with nodes := s.nodes.map (fun p => if p.1 == uid then (p.1, newName) else p) }

/-- Embeds `mc.getAttr(path, multiIndices=True)`: the element indices of the multi
attribute that are in use, i.e. the destination indices of its incoming
connections. -/
def usedIndices (s : Scene) (nodeName attrName : String) : List Nat :=
  match uidOf s nodeName with
  | none => []
  | some u =>
    s.connections.filterMap (fun c =>
      if c.2.node == u && c.2.attr == attrName then c.2.index else none)

/-- Maximum of a list of indices (`None`/`[]` gives `none`).  The source
reads the sorted in-use index list and takes its last element, which is
its maximum. -/
def maxIndex : List Nat → Option Nat
  | [] => none
  | i :: rest =>
    match maxIndex rest with
    | none => some i
    | some m => some (max i m)

/-- Embeds `mc.listConnections(path, source=True, destination=False)` on a multi
message attribute: the display names of the source nodes of its incoming
connections. -/
def listConnSources (s : Scene) (nodeName attrName : String) : List String :=
  match uidOf s nodeName with
  | none => []
  | some u =>
    (s.connections.filter (fun c => c.2.node == u && c.2.attr == attrName)).map
      (fun c => nameOf s c.1.node)

/-- Embeds `mc.listConnections(path, source=True, destination=False,
connections=True, plugs=True)` on a multi message attribute: the flat
alternating plug list, regrouped as (this-side destination plug,
other-side source plug) pairs — the stride-2 walk the source performs. -/
def listConnPairs (s : Scene) (nodeName attrName : String) : List (Plug × Plug) :=
  match uidOf s nodeName with
  | none => []
  | some u =>
    (s.connections.filter (fun c => c.2.node == u && c.2.attr == attrName)).map
      (fun c => (c.2, c.1))

/-- Python dict insert `d[label] = value`: overwrites in place when the
key exists (keeping its position), appends otherwise. -/
def dictInsert : List (String × JVal) → String → JVal → List (String × JVal)
  | [], label, value => [(label, value)]
  | kv :: rest, label, value =>
    if kv.1 == label then (label, value) :: rest
    else kv :: dictInsert rest label value

/-- Python `d.get(label, None)`. -/
def dictGet (d : List (String × JVal)) (label : String) : Option JVal :=
  (d.find? (fun kv => kv.1 == label)).map (fun kv => kv.2)

/-- Embeds `json.loads` of a data-tier attribute's text: a JSON object parses to
a dict (on duplicate keys the last value wins and the first position is
kept, which is how Python builds the dict); anything else raises
`JSONDecodeError`, modelled as `none`. -/
def jsonLoads : Stored → Option (List (String × JVal))
  | Stored.obj entries => some (entries.foldl (fun d kv => dictInsert d kv.1 kv.2) [])
  | Stored.notJson _ => none

/-- Embeds `all_data.update(raw)` where `raw` is the raw attribute *text* (the
source forgets to `json.loads` it).  Iterating a Python `str` yields
length-1 character strings, so `dict.update` raises
`ValueError: dictionary update sequence element #0 has length 1` for any
nonempty text and is a no-op for empty text.  Serialised object text is
never empty (it starts with a brace), so the update never merges
anything; the caller catches the `ValueError` and passes. -/
def dictUpdateRawText (d : List (String × JVal)) (_raw : Stored) :
    List (String × JVal) := d

namespace pointer

/-- Embeds `pointer.get_pointer(node_name)`: resolve a display name to an
`MObject`, re-raising Maya's lookup failure as
`RuntimeError(f"Could not find node {node_name}")`. -/
def get_pointer (s : Scene) (node_name : String) : Except String Nat :=
  match uidOf s node_name with
  | some uid => .ok uid
  | none => .error ("Could not find node " ++ node_name)

/-- Embeds `pointer.get_name(pointer)`: the current display name of the node the
`MObject` points at. -/
def get_name (s : Scene) (ptr : Nat) : String :=
  nameOf s ptr

end pointer

/-- Embeds `Metadata`: holds the two `MObject` pointers captured by `__init__`. -/
structure Metadata where
  _host_pointer : Nat
  _meta_pointer : Nat
deriving DecidableEq, Repr

/-- Embeds `Metadata.get_metanode(host)`: walk the destination plugs connected
from `host.message` and return the node of the first one whose plug ends
in `.host` (node and attribute names never contain a dot, and an indexed
plug `node.attr[i]` never ends in `.host`, so the `endswith('.host')`
test is exactly "attribute named `host`, unindexed"); `rsplit('.', 1)[0]`
is that plug's node name.  Returns `""` when there is no such plug. -/
def Metadata.get_metanode (s : Scene) (host : String) : Except String String :=
  match uidOf s host with
  | none => .error ("No object matches name: " ++ host)
  | some hu =>
    let all_plugs := s.connections.filter (fun c => c.1 == Plug.mk hu "message" none)
    match all_plugs.find? (fun c => c.2.attr == "host" && c.2.index == none) with
    | some c => .ok (nameOf s c.2.node)
    | none => .ok ""

/-- Embeds `Metadata.__init__(node)`: store a pointer to the host, then resolve
the host's metanode name and store a pointer to it too (raising when the
lookup of either name fails). -/
def Metadata.init (s : Scene) (node : String) : Except String Metadata := do
  let host_ptr ← pointer.get_pointer s node
  let metanode_name ← Metadata.get_metanode s node
  let meta_ptr ← pointer.get_pointer s metanode_name
  return { _host_pointer := host_ptr, _meta_pointer := meta_ptr }

/-- Embeds `Metadata.create(host_node)` (classmethod): create the network node,
add the `SYNAPTIC` marker, the `host` message attribute (connected from
`host_node.message`), and the two data tiers initialised to `"{}"`, then
return `Metadata(host_node)`. -/
def Metadata.create (s : Scene) (host_node : String) : Except String (Scene × Metadata) := do
  let (s1, meta_node) := createNode s
  let s2 ← addAttr s1 meta_node "SYNAPTIC"
  let s3 ← addAttr s2 meta_node "host"
  let s4 ← connectAttrPlain s3 host_node "message" meta_node "host"
  let s5 ← addAttr s4 meta_node "persistentData"
  let s6 ← setAttrStoredE s5 meta_node "persistentData" (Stored.obj [])
  let s7 ← addAttr s6 meta_node "transientData"
  let s8 ← setAttrStoredE s7 meta_node "transientData" (Stored.obj [])
  let md ← Metadata.init s8 host_node
  return (s8, md)

/-- Embeds `Metadata.set(label, value)`: query the metanode's reference state
(freshly, by name), pick the transient tier when referenced and the
persistent tier otherwise, read-modify-write that tier's map (malformed
stored JSON starts from an empty dict). -/
def Metadata.set (s : Scene) (md : Metadata) (label : String) (value : JVal) :
    Except String Scene := do
  let meta_name := pointer.get_name s md._meta_pointer
  let is_referenced ← referenceQuery s meta_name
  let attr := if is_referenced then "transientData" else "persistentData"
  let raw ← getAttrStoredE s meta_name attr
  let current_data := (jsonLoads raw).getD []
  let current_data := dictInsert current_data label value
  setAttrStoredE s meta_name attr (Stored.obj current_data)

/-- Embeds `Metadata.get(label)`: parse the persistent tier (malformed JSON gives
an empty dict), then `all_data.update(mc.getAttr(transient))` — on the
raw text, see `dictUpdateRawText` — with `ValueError`/`JSONDecodeError`
swallowed, and finally `all_data.get(label, None)`. -/
def Metadata.get (s : Scene) (md : Metadata) (label : String) :
    Except String (Option JVal) := do
  let meta_name := pointer.get_name s md._meta_pointer
  let praw ← getAttrStoredE s meta_name "persistentData"
  let all_data := (jsonLoads praw).getD []
  let traw ← getAttrStoredE s meta_name "transientData"
  let all_data := dictUpdateRawText all_data traw
  return dictGet all_data label

/-- The next element index `Metadata.tag` uses: one past the last in-use
index of the multi attribute (`getAttr(..., multiIndices=True)[-1] + 1`),
or 0 when the `TypeError`/`IndexError` of an empty index list fires. -/
def nextTagIndex (s : Scene) (nodeName attrName : String) : Nat :=
  match maxIndex (usedIndices s nodeName attrName) with
  | some last => last + 1
  | none => 0

/-- Embeds `Metadata.tag(tag_name, target)`: prefix the label with `usertag`,
add the multi message attribute if absent, then connect `target.message`
into the next free element slot (force=True). -/
def Metadata.tag (s : Scene) (md : Metadata) (tag_name target : String) :
    Except String Scene := do
  let tn := "usertag" ++ tag_name
  let meta_name := pointer.get_name s md._meta_pointer
  let s1 ← if objExistsAttr s meta_name tn then pure s else addAttr s meta_name tn
  let next_index := nextTagIndex s1 meta_name tn
  connectAttrForce s1 target "message" meta_name tn next_index

/-- The disconnect loop of `Metadata.untag`: walk the snapshot of
(this-plug, other-plug) pairs, disconnecting every pair whose source
node's name (the `rsplit('.', 1)[0]` of the rendered source plug, taken
from the snapshot scene `s0`) equals `target`. -/
def untagLoop (s0 : Scene) (target : String) : Scene → List (Plug × Plug) → Scene
  | s, [] => s
  | s, p :: rest =>
    if nameOf s0 p.2.node == target then
      untagLoop s0 target (disconnectAttr s p.2 p.1) rest
    else
      untagLoop s0 target s rest

/-- Embeds `Metadata.untag(tag_name, target)`: no-op when the prefixed attribute
does not exist or has no connections; otherwise disconnect every link
under it whose source node is named `target`. -/
def Metadata.untag (s : Scene) (md : Metadata) (tag_name target : String) : Scene :=
  let tn := "usertag" ++ tag_name
  let meta_name := pointer.get_name s md._meta_pointer
  if !(objExistsAttr s meta_name tn) then s
  else
    let connection_info := listConnPairs s meta_name tn
    if connection_info.isEmpty then s
    else untagLoop s target s connection_info

/-- Embeds `Metadata.find(tag_name)`: empty list when the prefixed attribute does
not exist; otherwise `list(set(listConnections(...) or []))` — the
de-duplicated source node names (Python's set order is arbitrary; we keep
first occurrences, which is membership-equivalent). -/
def Metadata.find (s : Scene) (md : Metadata) (tag_name : String) : List String :=
  let tn := "usertag" ++ tag_name
  let meta_name := pointer.get_name s md._meta_pointer
  if objExistsAttr s meta_name tn then (listConnSources s meta_name tn).dedup
  else []

/-- Embeds `Metadata.find_first(tag_name)`: first element of `find`, else None. -/
def Metadata.find_first (s : Scene) (md : Metadata) (tag_name : String) : Option String :=
  (Metadata.find s md tag_name).head?

/-- Embeds `Metadata.node()`. -/
def Metadata.node (s : Scene) (md : Metadata) : String :=
  pointer.get_name s md._meta_pointer

/-- Embeds `Metadata.host()`. -/
def Metadata.host (s : Scene) (md : Metadata) : String :=
  pointer.get_name s md._host_pointer

/-- Module-level `has_meta(node)`: truthiness of `get_metanode`'s string. -/
def has_meta (s : Scene) (node : String) : Except String Bool :=
  (Metadata.get_metanode s node).map (fun m => !(m == ""))

/-- Module-level `get(node)`: `Metadata(node)` when the node has metadata,
else None. -/
def get (s : Scene) (node : String) : Except String (Option Metadata) := do
  let b ← has_meta s node
  if b then do
    let md ← Metadata.init s node
    return some md
  else
    return none

/-- Module-level `create(node)`: when a metanode already exists, return
`get(pre_meta)` — note the argument is the *metanode's* name — leaving
the scene untouched; otherwise `Metadata.create(node)`. -/
def create (s : Scene) (node : String) : Except String (Scene × Option Metadata) := do
  let pre_meta ← Metadata.get_metanode s node
  if !(pre_meta == "") then do
    let r ← get s pre_meta
    return (s, r)
  else do
    let (s2, md) ← Metadata.create s node
    return (s2, some md)

/-- Links currently stored under a tag attribute `tn` of metanode `mu`:
the connections whose destination is an element of that attribute. -/
def tagLinks (s : Scene) (mu : Nat) (tn : String) : List (Plug × Plug) :=
  s.connections.filter (fun c => c.2.node == mu && c.2.attr == tn)

/-- A scene holding a single node named `cube` and nothing else. -/
def sceneHostOnly : Scene :=
  { nodes := [(0, "cube")], declaredAttrs := [], stringAttrs := [],
    connections := [], referencedNodes := [], nextUid := 1 }

/-- A host `cube` with a *referenced* metanode `meta0` whose persistent
tier maps `owner` to `A` and whose transient tier is empty. -/
def sceneRef : Scene :=
  { nodes := [(0, "cube"), (1, "meta0")],
    declaredAttrs := [(1, "host"), (1, "persistentData"), (1, "transientData")],
    stringAttrs := [((1, "persistentData"), Stored.obj [("owner", "A")]),
                    ((1, "transientData"), Stored.obj [])],
    connections := [(⟨0, "message", none⟩, ⟨1, "host", none⟩)],
    referencedNodes := [1], nextUid := 2 }

/-- The record bound to `cube`/`meta0` in `sceneRef`, `sceneCorrupt` and
`sceneTagged`. -/
def mdCube : Metadata := ⟨0, 1⟩

/-- A host `cube` with an unreferenced metanode `meta0` whose persistent
tier holds text that is not valid JSON and whose transient tier maps `k`
to `B`. -/
def sceneCorrupt : Scene :=
  { nodes := [(0, "cube"), (1, "meta0")],
    declaredAttrs := [(1, "host"), (1, "persistentData"), (1, "transientData")],
    stringAttrs := [((1, "persistentData"), Stored.notJson "corrupt"),
                    ((1, "transientData"), Stored.obj [("k", "B")])],
    connections := [(⟨0, "message", none⟩, ⟨1, "host", none⟩)],
    referencedNodes := [], nextUid := 2 }

/-- Scene for the end-to-end rename scenario: `pCube1` and `pCube1_ctrl`,
no metadata yet. -/
def sceneCube : Scene :=
  { nodes := [(0, "pCube1"), (1, "pCube1_ctrl")], declaredAttrs := [],
    stringAttrs := [], connections := [], referencedNodes := [], nextUid := 2 }

/-- A host `cube` with an unreferenced metanode `meta0`, empty data tiers,
and a `usertaggrp` tag attribute holding two duplicate links to `thing`
at element indices 0 and 1. -/
def sceneTagged : Scene :=
  { nodes := [(0, "cube"), (1, "meta0"), (2, "thing")],
    declaredAttrs := [(1, "host"), (1, "persistentData"), (1, "transientData"),
                      (1, "usertaggrp")],
    stringAttrs := [((1, "persistentData"), Stored.obj []),
                    ((1, "transientData"), Stored.obj [])],
    connections := [(⟨0, "message", none⟩, ⟨1, "host", none⟩),
                    (⟨2, "message", none⟩, ⟨1, "usertaggrp", some 0⟩),
                    (⟨2, "message", none⟩, ⟨1, "usertaggrp", some 1⟩)],
    referencedNodes := [], nextUid := 3 }

/-- Decidable equality for `Except`, used to evaluate the embedded
operations on concrete scenes. -/
instance {ε : Type u} {α : Type v} [DecidableEq ε] [DecidableEq α] :
    DecidableEq (Except ε α) := fun a b =>
  match a, b with
  | .ok x, .ok y =>
    if h : x = y then isTrue (by rw [h])
    else isFalse (by intro hc; cases hc; exact h rfl)
  | .error x, .error y =>
    if h : x = y then isTrue (by rw [h])
    else isFalse (by intro hc; cases hc; exact h rfl)
  | .ok _, .error _ => isFalse (by intro hc; cases hc)
  | .error _, .ok _ => isFalse (by intro hc; cases hc)

/-! ## Helper lemmas -/

theorem lookupStringAttr_put_self (l : List ((Nat × String) × Stored))
    (k : Nat × String) (v : Stored) :
    lookupStringAttr (putStringAttr l k v) k = some v := by
  induction l with
  | nil => simp [putStringAttr, lookupStringAttr]
  | cons e rest ih =>
    by_cases h : e.1 = k
    · simp [putStringAttr, lookupStringAttr, h]
    · simp [putStringAttr, lookupStringAttr, h, ih]

theorem lookupStringAttr_put_ne (l : List ((Nat × String) × Stored))
    (k k' : Nat × String) (v : Stored) (h : k' ≠ k) :
    lookupStringAttr (putStringAttr l k v) k' = lookupStringAttr l k' := by
  induction l with
  | nil => simp [putStringAttr, lookupStringAttr, Ne.symm h]
  | cons e rest ih =>
    by_cases he : e.1 = k
    · have h2 : ¬(k = k') := fun hk => h hk.symm
      simp [putStringAttr, lookupStringAttr, he, h2]
    · simp only [putStringAttr, he, if_false, lookupStringAttr]
      by_cases he' : e.1 = k'
      · simp [he']
      · simp [he', ih]

theorem uidOf_mem {s : Scene} {n : String} {u : Nat} (h : uidOf s n = some u) :
    (u, n) ∈ s.nodes := by
  unfold uidOf at h
  cases hf : s.nodes.find? (fun p => p.2 == n) with
  | none => rw [hf] at h; simp at h
  | some p =>
    rw [hf] at h
    simp only [Option.map_some'] at h
    have hp := @List.find?_some _ _ _ _ hf
    have hm : p ∈ s.nodes := List.mem_of_find?_eq_some hf
    have : p = (u, n) := by
      cases p
      simp_all
    rw [this] at hm
    exact hm

theorem find?_fst_eq {l : List (Nat × String)} {u : Nat} {n : String}
    (hnd : (l.map Prod.fst).Nodup) (hm : (u, n) ∈ l) :
    l.find? (fun p => p.1 == u) = some (u, n) := by
  induction l with
  | nil => cases hm
  | cons e rest ih =>
    rcases List.mem_cons.mp hm with he | hm2
    · rw [← he]
      simp [List.find?_cons]
    · have hu : u ∈ rest.map Prod.fst := List.mem_map.mpr ⟨(u, n), hm2, rfl⟩
      have hne : (e.1 == u) = false := by
        simp only [List.map_cons, List.nodup_cons] at hnd
        have : e.1 ≠ u := fun h => hnd.1 (h ▸ hu)
        simp [this]
      simp only [List.find?_cons, hne]
      exact ih (by simpa using (List.map_cons Prod.fst e rest ▸ hnd).of_cons) hm2

theorem nameOf_eq_of_uidOf {s : Scene} {n : String} {u : Nat}
    (hnd : (s.nodes.map Prod.fst).Nodup) (h : uidOf s n = some u) :
    nameOf s u = n := by
  have hm := uidOf_mem h
  unfold nameOf
  rw [find?_fst_eq hnd hm]
  rfl

theorem maxIndex_eq_none {l : List Nat} (h : maxIndex l = none) : l = [] := by
  cases l with
  | nil => rfl
  | cons i rest =>
    unfold maxIndex at h
    cases hr : maxIndex rest <;> rw [hr] at h <;> simp at h

theorem maxIndex_le {l : List Nat} {m : Nat} (h : maxIndex l = some m) :
    ∀ i ∈ l, i ≤ m := by
  induction l generalizing m with
  | nil => simp
  | cons j rest ih =>
    intro i hi
    unfold maxIndex at h
    cases hr : maxIndex rest with
    | none =>
      rw [hr] at h
      simp only [Option.some.injEq] at h
      have : rest = [] := maxIndex_eq_none hr
      subst this
      rcases List.mem_cons.mp hi with rfl | h2
      · omega
      · cases h2
    | some mr =>
      rw [hr] at h
      simp only [Option.some.injEq] at h
      rcases List.mem_cons.mp hi with rfl | h2
      · omega
      · have := ih hr i h2
        omega

theorem nextTagIndex_not_mem (s : Scene) (nodeName attrName : String) :
    nextTagIndex s nodeName attrName ∉ usedIndices s nodeName attrName := by
  unfold nextTagIndex
  cases h : maxIndex (usedIndices s nodeName attrName) with
  | none => rw [maxIndex_eq_none h]; simp
  | some m =>
    have hred : (match (some m : Option Nat) with
      | some last => last + 1 | none => 0) = m + 1 := rfl
    rw [hred]
    intro hmem
    have := maxIndex_le h _ hmem
    omega

theorem uidOf_eq_of_nodes {s s' : Scene} (h : s'.nodes = s.nodes) (n : String) :
    uidOf s' n = uidOf s n := by
  unfold uidOf; rw [h]

theorem nameOf_eq_of_nodes {s s' : Scene} (h : s'.nodes = s.nodes) (u : Nat) :
    nameOf s' u = nameOf s u := by
  unfold nameOf; rw [h]

theorem usedIndices_eq_of {s s' : Scene} (h1 : s'.nodes = s.nodes)
    (h2 : s'.connections = s.connections) (n a : String) :
    usedIndices s' n a = usedIndices s n a := by
  unfold usedIndices uidOf; rw [h1, h2]

theorem nextTagIndex_eq_of {s s' : Scene} (h1 : s'.nodes = s.nodes)
    (h2 : s'.connections = s.connections) (n a : String) :
    nextTagIndex s' n a = nextTagIndex s n a := by
  unfold nextTagIndex; rw [usedIndices_eq_of h1 h2]

theorem contains_append_one {l : List (Nat × String)} {x a : Nat × String}
    (h : l.contains x = true) : (l ++ [a]).contains x = true := by
  simp only [List.contains_eq_any_beq, List.any_append, List.any_cons, List.any_nil] at *
  simp [h]

theorem contains_append_self (l : List (Nat × String)) (a : Nat × String) :
    (l ++ [a]).contains a = true := by
  simp [List.contains_eq_any_beq, List.any_append]

/-- The element slot `Metadata.tag` connects into is free, so the
`force=True` disconnect pass removes nothing. -/
theorem tag_filter_eq (s : Scene) (mn tn : String) (mu : Nat)
    (hm : uidOf s mn = some mu) :
    s.connections.filter
      (fun c => !(c.2 == Plug.mk mu tn (some (nextTagIndex s mn tn)))) = s.connections := by
  apply List.filter_eq_self.mpr
  intro c hc
  simp only [Bool.not_eq_true', beq_eq_false_iff_ne, ne_eq]
  intro heq
  have hidx : nextTagIndex s mn tn ∈ usedIndices s mn tn := by
    unfold usedIndices
    rw [hm]
    apply List.mem_filterMap.mpr
    refine ⟨c, hc, ?_⟩
    rw [heq]
    simp
  exact absurd hidx (nextTagIndex_not_mem s mn tn)

/-- What `Metadata.tag` does to the scene, given that the metanode's name
and the target's name both resolve: it appends exactly one connection
from `target.message` into the next free slot of the prefixed tag
attribute, possibly declaring that attribute first, and touches nothing
else. -/
theorem tag_ok (s : Scene) (md : Metadata) (tag_name target : String) (mu tu : Nat)
    (hm : uidOf s (pointer.get_name s md._meta_pointer) = some mu)
    (ht : uidOf s target = some tu) :
    ∃ s', Metadata.tag s md tag_name target = .ok s'
      ∧ s'.nodes = s.nodes
      ∧ s'.stringAttrs = s.stringAttrs
      ∧ s'.referencedNodes = s.referencedNodes
      ∧ s'.connections = s.connections ++
          [(⟨tu, "message", none⟩,
            ⟨mu, "usertag" ++ tag_name,
             some (nextTagIndex s (pointer.get_name s md._meta_pointer)
               ("usertag" ++ tag_name))⟩)]
      ∧ objExistsAttr s' (pointer.get_name s md._meta_pointer)
          ("usertag" ++ tag_name) = true
      ∧ (∀ x : Nat × String, s.declaredAttrs.contains x = true →
          s'.declaredAttrs.contains x = true)
      ∧ (objExistsAttr s (pointer.get_name s md._meta_pointer)
          ("usertag" ++ tag_name) = true → s'.declaredAttrs = s.declaredAttrs) := by
  set mn := pointer.get_name s md._meta_pointer with hmn
  set tn := "usertag" ++ tag_name with htn
  cases hob : objExistsAttr s mn tn with
  | true =>
    refine ⟨{ s with connections := s.connections ++
        [(⟨tu, "message", none⟩, ⟨mu, tn, some (nextTagIndex s mn tn)⟩)] }, ?_, rfl, rfl,
        rfl, rfl, ?_, fun _ hx => hx, fun _ => rfl⟩
    · simp only [Metadata.tag]
      rw [← htn, ← hmn, hob]
      simp only [if_true, Bind.bind, Except.bind, pure, Except.pure]
      unfold connectAttrForce
      rw [ht, hm]
      simp only [tag_filter_eq s mn tn mu hm]
    · have hnodes : ({ s with connections := s.connections ++
          [(⟨tu, "message", none⟩, ⟨mu, tn, some (nextTagIndex s mn tn)⟩)] } :
          Scene).nodes = s.nodes := rfl
      unfold objExistsAttr at hob ⊢
      rw [uidOf_eq_of_nodes hnodes]
      rw [hm] at hob ⊢
      exact hob
  | false =>
    have hm1 : uidOf s mn = some mu := hm
    refine ⟨{ s with
        declaredAttrs := s.declaredAttrs ++ [(mu, tn)],
        connections := s.connections ++
          [(⟨tu, "message", none⟩, ⟨mu, tn, some (nextTagIndex s mn tn)⟩)] },
        ?_, rfl, rfl, rfl, rfl, ?_, ?_, ?_⟩
    · simp only [Metadata.tag]
      rw [← htn, ← hmn, hob]
      simp only [if_false, Bool.false_eq_true]
      unfold addAttr
      rw [hm1]
      simp only [Bind.bind, Except.bind]
      have hnodes : ({ s with declaredAttrs := s.declaredAttrs ++ [(mu, tn)]} :
          Scene).nodes = s.nodes := rfl
      have hconn : ({ s with declaredAttrs := s.declaredAttrs ++ [(mu, tn)]} :
          Scene).connections = s.connections := rfl
      have hm2 : uidOf { s with declaredAttrs := s.declaredAttrs ++ [(mu, tn)]} mn
          = some mu := by rw [uidOf_eq_of_nodes hnodes]; exact hm1
      have ht2 : uidOf { s with declaredAttrs := s.declaredAttrs ++ [(mu, tn)]} target
          = some tu := by rw [uidOf_eq_of_nodes hnodes]; exact ht
      unfold connectAttrForce
      rw [ht2, hm2]
      rw [nextTagIndex_eq_of hnodes hconn mn tn]
      simp only [tag_filter_eq s mn tn mu hm1]
    · have hnodes : ({ s with
          declaredAttrs := s.declaredAttrs ++ [(mu, tn)],
          connections := s.connections ++
            [(⟨tu, "message", none⟩, ⟨mu, tn, some (nextTagIndex s mn tn)⟩)] } :
          Scene).nodes = s.nodes := rfl
      unfold objExistsAttr
      simp only [uidOf_eq_of_nodes hnodes, hm1]
      simp [contains_append_self s.declaredAttrs (mu, tn)]
    · intro x hx
      exact contains_append_one hx
    · intro h
      exact Bool.noConfusion h

/-- Running the untag disconnect loop removes exactly the connections
that occur (swapped) in the pair snapshot with a source node named
`target`; every other connection, and every other scene field, is left
alone. -/
theorem untagLoop_eq (s0 : Scene) (target : String) :
    ∀ (pairs : List (Plug × Plug)) (s : Scene),
      untagLoop s0 target s pairs =
        { s with connections := s.connections.filter (fun c =>
            !(pairs.any (fun p =>
              (nameOf s0 p.2.node == target) && (c == (p.2, p.1))))) } := by
  intro pairs
  induction pairs with
  | nil =>
    intro s
    show s = _
    simp only [List.any_nil, Bool.not_false, List.filter_true]
  | cons p rest ih =>
    intro s
    show (if nameOf s0 p.2.node == target then
        untagLoop s0 target (disconnectAttr s p.2 p.1) rest
      else untagLoop s0 target s rest) = _
    cases hname : (nameOf s0 p.2.node == target) with
    | true =>
      rw [if_pos rfl]
      rw [ih]
      unfold disconnectAttr
      show ({ s with connections :=
        (s.connections.filter (fun c => !(c == (p.2, p.1)))).filter (fun c =>
          !(rest.any (fun q =>
            (nameOf s0 q.2.node == target) && (c == (q.2, q.1))))) } : Scene) = _
      rw [List.filter_filter]
      congr 1
      apply List.filter_congr
      intro c _
      simp only [List.any_cons, hname, Bool.true_and]
      cases hc : (c == (p.2, p.1)) <;>
        cases hr : rest.any (fun q =>
          (nameOf s0 q.2.node == target) && (c == (q.2, q.1))) <;>
        simp [hc, hr]
    | false =>
      rw [if_neg (by simp)]
      rw [ih]
      congr 1
      apply List.filter_congr
      intro c _
      simp only [List.any_cons, hname, Bool.false_and, Bool.false_or]

/-- What `Metadata.untag` does, given that the metanode's name resolves:
when the prefixed attribute exists, every link under it whose source
node is currently named `target` is disconnected and nothing else
changes; when it does not exist, the scene is returned untouched. -/
theorem untag_ok (s : Scene) (md : Metadata) (tag_name target : String) (mu : Nat)
    (hm : uidOf s (pointer.get_name s md._meta_pointer) = some mu) :
    (objExistsAttr s (pointer.get_name s md._meta_pointer)
        ("usertag" ++ tag_name) = true →
      Metadata.untag s md tag_name target =
        { s with connections := s.connections.filter (fun c =>
            !(c.2.node == mu && c.2.attr == "usertag" ++ tag_name
              && (nameOf s c.1.node == target))) })
    ∧ (objExistsAttr s (pointer.get_name s md._meta_pointer)
        ("usertag" ++ tag_name) = false →
      Metadata.untag s md tag_name target = s) := by
  set mn := pointer.get_name s md._meta_pointer with hmn
  set tn := "usertag" ++ tag_name with htn
  constructor
  · intro hob
    show (if !(objExistsAttr s mn tn) then s
      else
        let connection_info := listConnPairs s mn tn
        if connection_info.isEmpty then s
        else untagLoop s target s connection_info) = _
    rw [hob]
    simp only [Bool.not_true, Bool.false_eq_true, if_false]
    have hpairs : listConnPairs s mn tn =
        (s.connections.filter (fun c => c.2.node == mu && c.2.attr == tn)).map
          (fun c => (c.2, c.1)) := by
      unfold listConnPairs
      rw [hm]
    rw [hpairs]
    have hany : ∀ c ∈ s.connections,
        (((s.connections.filter (fun c => c.2.node == mu && c.2.attr == tn)).map
            (fun c => (c.2, c.1))).any (fun p =>
          (nameOf s p.2.node == target) && (c == (p.2, p.1))))
        = (c.2.node == mu && c.2.attr == tn && (nameOf s c.1.node == target)) := by
      intro c hc
      rw [List.any_map]
      rw [Bool.eq_iff_iff]
      constructor
      · intro h
        rcases List.any_eq_true.mp h with ⟨x, hx, hpx⟩
        simp only [Function.comp] at hpx
        have hcx : c = x := by
          have := (Bool.and_eq_true _ _).mp hpx
          have h2 := this.2
          simp only [Prod.mk.eta] at h2
          exact eq_of_beq h2
        subst hcx
        have hq := (List.mem_filter.mp hx).2
        have hn := ((Bool.and_eq_true _ _).mp hpx).1
        simp only [Bool.and_eq_true] at hq ⊢
        exact ⟨hq, by simpa using hn⟩
      · intro h
        simp only [Bool.and_eq_true] at h
        apply List.any_eq_true.mpr
        refine ⟨c, List.mem_filter.mpr ⟨hc, ?_⟩, ?_⟩
        · simp [Bool.and_eq_true, h.1]
        · simp only [Function.comp, Prod.mk.eta]
          simp [h.1, h.2]
    cases hemp : ((s.connections.filter
        (fun c => c.2.node == mu && c.2.attr == tn)).map
          (fun c => (c.2, c.1))).isEmpty with
    | true =>
      simp only [if_true]
      have hnil : s.connections.filter
          (fun c => c.2.node == mu && c.2.attr == tn) = [] := by
        have := List.isEmpty_iff.mp hemp
        exact List.map_eq_nil_iff.mp this
      have : s.connections.filter (fun c =>
          !(c.2.node == mu && c.2.attr == tn
            && (nameOf s c.1.node == target))) = s.connections := by
        apply List.filter_eq_self.mpr
        intro c hc
        have hcq : (c.2.node == mu && c.2.attr == tn) = false := by
          cases hq : (c.2.node == mu && c.2.attr == tn)
          · rfl
          · exfalso
            have : c ∈ s.connections.filter
                (fun c => c.2.node == mu && c.2.attr == tn) :=
              List.mem_filter.mpr ⟨hc, hq⟩
            rw [hnil] at this
            cases this
        simp [hcq]
      rw [this]
    | false =>
      simp only [Bool.false_eq_true, if_false]
      rw [untagLoop_eq]
      congr 1
      apply List.filter_congr
      intro c hc
      rw [hany c hc]
  · intro hob
    show (if !(objExistsAttr s mn tn) then s
      else
        let connection_info := listConnPairs s mn tn
        if connection_info.isEmpty then s
        else untagLoop s target s connection_info) = _
    rw [hob]
    simp

/-- Embeds `Metadata.find` when the prefixed attribute exists: the de-duplicated
current names of the source nodes of the links under it. -/
theorem find_eq_of (s : Scene) (md : Metadata) (tag_name : String) (mu : Nat)
    (hm : uidOf s (pointer.get_name s md._meta_pointer) = some mu)
    (hob : objExistsAttr s (pointer.get_name s md._meta_pointer)
      ("usertag" ++ tag_name) = true) :
    Metadata.find s md tag_name =
      ((s.connections.filter (fun c =>
          c.2.node == mu && c.2.attr == "usertag" ++ tag_name)).map
        (fun c => nameOf s c.1.node)).dedup := by
  show (if objExistsAttr s (pointer.get_name s md._meta_pointer)
        ("usertag" ++ tag_name) then
      (listConnSources s (pointer.get_name s md._meta_pointer)
        ("usertag" ++ tag_name)).dedup
    else []) = _
  rw [hob, if_pos rfl]
  unfold listConnSources
  rw [hm]

/-- Embeds `Metadata.find` when the prefixed attribute does not exist. -/
theorem find_eq_nil_of (s : Scene) (md : Metadata) (tag_name : String)
    (hob : objExistsAttr s (pointer.get_name s md._meta_pointer)
      ("usertag" ++ tag_name) = false) :
    Metadata.find s md tag_name = [] := by
  show (if objExistsAttr s (pointer.get_name s md._meta_pointer)
        ("usertag" ++ tag_name) then
      (listConnSources s (pointer.get_name s md._meta_pointer)
        ("usertag" ++ tag_name)).dedup
    else []) = _
  rw [hob]
  simp

/-! ## Claim theorems -/

/-- C1: the claim says a second module-level `create` on a host that
already has a metadata record returns the existing record.  Evaluating
the code at such an input refutes this: the second `create` passes the
*metanode's* name to `get`, whose `has_meta` check fails (a metanode has
no metanode of its own), so `None` is returned — while, as the claim
says, the scene is left untouched and no second storage node appears. -/
theorem C1_second_create_returns_none :
    (do
      let (s1, _) ← create sceneHostOnly "cube"
      let (s2, r) ← create s1 "cube"
      pure (r, s2 == s1, s2.nodes.length) :
      Except String (Option Metadata × Bool × Nat))
    = Except.ok (none, true, 2) := by decide

/-- C2: the claim says the transient tier overrides the persistent tier
in `get`.  Evaluating the code refutes it: with persistent
`owner = "A"`, after a `set("owner", "B")` performed while the metanode
is referenced (which demonstrably lands in the transient tier, leaving
the persistent tier untouched), `get("owner")` still returns `"A"` —
the transient merge calls `dict.update` on the raw attribute text
without `json.loads`, and the resulting `ValueError` is swallowed. -/
theorem C2_get_ignores_transient_tier :
    ((Metadata.set sceneRef mdCube "owner" "B").bind
      (fun s2 => Metadata.get s2 mdCube "owner") = Except.ok (some "A"))
    ∧ ((Metadata.set sceneRef mdCube "owner" "B").map
        (fun s2 => lookupStringAttr s2.stringAttrs (1, "transientData"))
      = Except.ok (some (Stored.obj [("owner", "B")])))
    ∧ ((Metadata.set sceneRef mdCube "owner" "B").map
        (fun s2 => lookupStringAttr s2.stringAttrs (1, "persistentData"))
      = Except.ok (some (Stored.obj [("owner", "A")]))) := by decide

/-- C4: end-to-end scenario — create metadata for `pCube1`, set
`owner = rigTeam`, tag `pCube1_ctrl` under `controls`, rename the host
to `cube_final`; `host()` then resolves to the new name and
`get("owner")` still returns the value stored before the rename. -/
theorem C4_handles_survive_renames :
    (do
      let (s1, md) ← Metadata.create sceneCube "pCube1"
      let s2 ← Metadata.set s1 md "owner" "rigTeam"
      let s3 ← Metadata.tag s2 md "controls" "pCube1_ctrl"
      let found := Metadata.find s3 md "controls"
      let s4 := renameNode s3 0 "cube_final"
      let v ← Metadata.get s4 md "owner"
      pure (Metadata.host s4 md, v, found) :
      Except String (String × Option JVal × List String))
    = Except.ok ("cube_final", some "rigTeam", ["pCube1_ctrl"]) := by decide

/-- C7: the claim says that when one data tier holds non-JSON text,
`get` treats that tier as empty and returns the value derivable from
the *other* tier.  Evaluating the code refutes the second half: with
persistent tier text `corrupt` and transient tier `{"k": "B"}`, the
code does not raise but returns `None` instead of `"B"` (the transient
tier is never merged, see C2).  The `set` half of the claim does hold:
`set` overwrites the corrupt active tier with a fresh one-entry map. -/
theorem C7_malformed_persistent_hides_transient_value :
    (Metadata.get sceneCorrupt mdCube "k" = Except.ok none)
    ∧ ((Metadata.set sceneCorrupt mdCube "k" "v").map
        (fun s2 => lookupStringAttr s2.stringAttrs (1, "persistentData"))
      = Except.ok (some (Stored.obj [("k", "v")]))) := by decide

/-- C3: tier isolation — `Metadata.set` queries the metanode's reference
state freshly on the call and writes exactly the one data-tier attribute
that state selects (transient when referenced, persistent otherwise):
every other stored attribute — in particular the entire other tier on
every node — is unchanged, as are the nodes, declared attributes,
connections and reference set. -/
theorem C3_set_writes_exactly_one_tier (s : Scene) (md : Metadata)
    (label : String) (value : JVal) (mu : Nat) (r : Bool) (raw : Stored)
    (hm : uidOf s (pointer.get_name s md._meta_pointer) = some mu)
    (hr : s.referencedNodes.contains mu = r)
    (hread : lookupStringAttr s.stringAttrs
      (mu, if r then "transientData" else "persistentData") = some raw)
    (hdecl : s.declaredAttrs.contains
      (mu, if r then "transientData" else "persistentData") = true) :
    ∃ s', Metadata.set s md label value = .ok s'
      ∧ s'.nodes = s.nodes ∧ s'.declaredAttrs = s.declaredAttrs
      ∧ s'.connections = s.connections ∧ s'.referencedNodes = s.referencedNodes
      ∧ lookupStringAttr s'.stringAttrs
          (mu, if r then "transientData" else "persistentData")
        = some (Stored.obj (dictInsert ((jsonLoads raw).getD []) label value))
      ∧ (∀ k : Nat × String,
          k ≠ (mu, if r then "transientData" else "persistentData") →
          lookupStringAttr s'.stringAttrs k = lookupStringAttr s.stringAttrs k)
      ∧ (r = false → ∀ u : Nat,
          lookupStringAttr s'.stringAttrs (u, "transientData")
            = lookupStringAttr s.stringAttrs (u, "transientData"))
      ∧ (r = true → ∀ u : Nat,
          lookupStringAttr s'.stringAttrs (u, "persistentData")
            = lookupStringAttr s.stringAttrs (u, "persistentData")) := by
  cases r with
  | false =>
    simp only [Bool.false_eq_true, if_false] at hread hdecl ⊢
    refine ⟨{ s with stringAttrs := (putStringAttr s.stringAttrs
                (mu, "persistentData")
                (Stored.obj (dictInsert ((jsonLoads raw).getD []) label value))) },
      ?_, rfl, rfl, rfl, rfl, ?_, ?_, ?_, fun h => h.elim⟩
    · simp only [Metadata.set, Bind.bind, Except.bind, referenceQuery,
        getAttrStoredE, setAttrStoredE, hm, hr, hread, hdecl]
      have hd : (mu, "persistentData") ∈ s.declaredAttrs := by simpa using hdecl
      simp [hread, hd]
    · exact lookupStringAttr_put_self _ _ _
    · intro k hk
      exact lookupStringAttr_put_ne _ _ _ _ hk
    · intro _ u
      refine lookupStringAttr_put_ne _ _ _ _ ?_
      intro h
      have := (Prod.mk.injEq _ _ _ _).mp h
      exact absurd this.2 (by decide)
  | true =>
    simp only [if_true] at hread hdecl ⊢
    refine ⟨{ s with stringAttrs := (putStringAttr s.stringAttrs
                (mu, "transientData")
                (Stored.obj (dictInsert ((jsonLoads raw).getD []) label value))) },
      ?_, rfl, rfl, rfl, rfl, ?_, ?_, fun h => Bool.noConfusion h, ?_⟩
    · simp only [Metadata.set, Bind.bind, Except.bind, referenceQuery,
        getAttrStoredE, setAttrStoredE, hm, hr, hread, hdecl]
      have hd : (mu, "transientData") ∈ s.declaredAttrs := by simpa using hdecl
      simp [hread, hd]
    · exact lookupStringAttr_put_self _ _ _
    · intro k hk
      exact lookupStringAttr_put_ne _ _ _ _ hk
    · intro _ u
      refine lookupStringAttr_put_ne _ _ _ _ ?_
      intro h
      have := (Prod.mk.injEq _ _ _ _).mp h
      exact absurd this.2 (by decide)

/-- Witness for C3 at a concrete referenced record: in `sceneRef` the
metanode `meta0` (uid 1) is referenced, so `set` writes the transient
tier and leaves every persistent-tier attribute unchanged. -/
theorem C3_witness :
    (uidOf sceneRef (pointer.get_name sceneRef mdCube._meta_pointer) = some 1
      ∧ sceneRef.referencedNodes.contains 1 = true
      ∧ lookupStringAttr sceneRef.stringAttrs
          (1, if true then "transientData" else "persistentData")
        = some (Stored.obj [])
      ∧ sceneRef.declaredAttrs.contains
          (1, if true then "transientData" else "persistentData") = true)
    ∧ (∃ s', Metadata.set sceneRef mdCube "owner" "B" = .ok s'
      ∧ s'.nodes = sceneRef.nodes ∧ s'.declaredAttrs = sceneRef.declaredAttrs
      ∧ s'.connections = sceneRef.connections
      ∧ s'.referencedNodes = sceneRef.referencedNodes
      ∧ lookupStringAttr s'.stringAttrs
          (1, if true then "transientData" else "persistentData")
        = some (Stored.obj
            (dictInsert ((jsonLoads (Stored.obj [])).getD []) "owner" "B"))
      ∧ (∀ k : Nat × String,
          k ≠ (1, if true then "transientData" else "persistentData") →
          lookupStringAttr s'.stringAttrs k = lookupStringAttr sceneRef.stringAttrs k)
      ∧ (true = false → ∀ u : Nat,
          lookupStringAttr s'.stringAttrs (u, "transientData")
            = lookupStringAttr sceneRef.stringAttrs (u, "transientData"))
      ∧ (true = true → ∀ u : Nat,
          lookupStringAttr s'.stringAttrs (u, "persistentData")
            = lookupStringAttr sceneRef.stringAttrs (u, "persistentData"))) :=
  ⟨⟨by decide, by decide, by decide, by decide⟩,
    C3_set_writes_exactly_one_tier sceneRef mdCube "owner" "B" 1 true
      (Stored.obj []) (by decide) (by decide) (by decide) (by decide)⟩

theorem get_name_eq_of_nodes {s s' : Scene} (h : s'.nodes = s.nodes) (u : Nat) :
    pointer.get_name s' u = pointer.get_name s u := by
  unfold pointer.get_name
  exact nameOf_eq_of_nodes h u

theorem objExistsAttr_eq_of {s s' : Scene} (h1 : s'.nodes = s.nodes)
    (h2 : s'.declaredAttrs = s.declaredAttrs) (n a : String) :
    objExistsAttr s' n a = objExistsAttr s n a := by
  unfold objExistsAttr uidOf
  rw [h1, h2]

/-- After filtering out every link under the tag whose source is named
`target`, `find` cannot return `target` any more. -/
theorem not_mem_find_filtered (s' : Scene) (md' : Metadata)
    (tag_name target : String) (mu' : Nat)
    (hm' : uidOf s' (pointer.get_name s' md'._meta_pointer) = some mu')
    (hob : objExistsAttr s' (pointer.get_name s' md'._meta_pointer)
      ("usertag" ++ tag_name) = true) :
    target ∉ Metadata.find
      { s' with connections := s'.connections.filter (fun c =>
          !(c.2.node == mu' && c.2.attr == "usertag" ++ tag_name
            && (nameOf s' c.1.node == target))) } md' tag_name := by
  intro hmem
  have hnodesU : ({ s' with connections := s'.connections.filter (fun c =>
      !(c.2.node == mu' && c.2.attr == "usertag" ++ tag_name
        && (nameOf s' c.1.node == target))) } : Scene).nodes = s'.nodes := rfl
  have hgU := get_name_eq_of_nodes hnodesU md'._meta_pointer
  have hmU : uidOf { s' with connections := s'.connections.filter (fun c =>
      !(c.2.node == mu' && c.2.attr == "usertag" ++ tag_name
        && (nameOf s' c.1.node == target))) }
      (pointer.get_name { s' with connections := s'.connections.filter (fun c =>
        !(c.2.node == mu' && c.2.attr == "usertag" ++ tag_name
          && (nameOf s' c.1.node == target))) } md'._meta_pointer) = some mu' := by
    rw [hgU, uidOf_eq_of_nodes hnodesU]
    exact hm'
  have hobU : objExistsAttr { s' with connections := s'.connections.filter (fun c =>
      !(c.2.node == mu' && c.2.attr == "usertag" ++ tag_name
        && (nameOf s' c.1.node == target))) }
      (pointer.get_name { s' with connections := s'.connections.filter (fun c =>
        !(c.2.node == mu' && c.2.attr == "usertag" ++ tag_name
          && (nameOf s' c.1.node == target))) } md'._meta_pointer)
      ("usertag" ++ tag_name) = true := by
    rw [hgU, objExistsAttr_eq_of hnodesU rfl]
    exact hob
  rw [find_eq_of _ md' tag_name mu' hmU hobU] at hmem
  rw [List.mem_dedup] at hmem
  rcases List.mem_map.mp hmem with ⟨c, hcmem, hcname⟩
  have hcm := List.mem_filter.mp hcmem
  have hq := hcm.2
  have hcin : c ∈ s'.connections.filter (fun c =>
      !(c.2.node == mu' && c.2.attr == "usertag" ++ tag_name
        && (nameOf s' c.1.node == target))) := hcm.1
  have hbig := (List.mem_filter.mp hcin).2
  rw [nameOf_eq_of_nodes hnodesU] at hcname
  rw [Bool.not_eq_true'] at hbig
  rw [hq] at hbig
  simp only [Bool.true_and] at hbig
  rw [hcname] at hbig
  simp at hbig

/-- C5: tag round-trip — after `tag(t, X)` the result of `find(t)`
contains `X`; `untag(t, X)` removes every link under `t` whose target is
named `X` (even duplicates) and nothing else, so afterwards `find(t)` no
longer contains `X`; and `untag` is a no-op rather than an error when
the tag label does not exist or no link under it points at `X`. -/
theorem C5_tag_untag_round_trip
    (s : Scene) (md : Metadata) (tag_name target : String) (mu tu : Nat)
    (s' : Scene) (md' : Metadata) (mu' : Nat)
    (hnd : (s.nodes.map Prod.fst).Nodup)
    (hm : uidOf s (pointer.get_name s md._meta_pointer) = some mu)
    (ht : uidOf s target = some tu)
    (hm' : uidOf s' (pointer.get_name s' md'._meta_pointer) = some mu') :
    (∃ s1, Metadata.tag s md tag_name target = .ok s1
      ∧ target ∈ Metadata.find s1 md tag_name)
    ∧ (objExistsAttr s' (pointer.get_name s' md'._meta_pointer)
        ("usertag" ++ tag_name) = true →
      Metadata.untag s' md' tag_name target =
        { s' with connections := s'.connections.filter (fun c =>
            !(c.2.node == mu' && c.2.attr == "usertag" ++ tag_name
              && (nameOf s' c.1.node == target))) })
    ∧ (objExistsAttr s' (pointer.get_name s' md'._meta_pointer)
        ("usertag" ++ tag_name) = false →
      Metadata.untag s' md' tag_name target = s')
    ∧ target ∉ Metadata.find (Metadata.untag s' md' tag_name target) md' tag_name
    ∧ ((∀ c ∈ s'.connections, ¬(c.2.node = mu' ∧ c.2.attr = "usertag" ++ tag_name
          ∧ nameOf s' c.1.node = target)) →
      Metadata.untag s' md' tag_name target = s') := by
  obtain ⟨hu_t, hu_f⟩ := untag_ok s' md' tag_name target mu' hm'
  refine ⟨?_, hu_t, hu_f, ?_, ?_⟩
  · obtain ⟨s1, htag, hn, _, _, hconn, hex, _, _⟩ :=
      tag_ok s md tag_name target mu tu hm ht
    refine ⟨s1, htag, ?_⟩
    have hget : pointer.get_name s1 md._meta_pointer
        = pointer.get_name s md._meta_pointer := get_name_eq_of_nodes hn _
    have hm1 : uidOf s1 (pointer.get_name s1 md._meta_pointer) = some mu := by
      rw [hget, uidOf_eq_of_nodes hn]
      exact hm
    have hex1 : objExistsAttr s1 (pointer.get_name s1 md._meta_pointer)
        ("usertag" ++ tag_name) = true := by
      rw [hget]
      exact hex
    rw [find_eq_of s1 md tag_name mu hm1 hex1]
    rw [List.mem_dedup]
    apply List.mem_map.mpr
    refine ⟨(⟨tu, "message", none⟩,
      ⟨mu, "usertag" ++ tag_name,
       some (nextTagIndex s (pointer.get_name s md._meta_pointer)
         ("usertag" ++ tag_name))⟩), ?_, ?_⟩
    · apply List.mem_filter.mpr
      refine ⟨?_, by simp⟩
      rw [hconn]
      simp
    · show nameOf s1 tu = target
      rw [nameOf_eq_of_nodes hn]
      exact nameOf_eq_of_uidOf hnd ht
  · cases hob : objExistsAttr s' (pointer.get_name s' md'._meta_pointer)
        ("usertag" ++ tag_name) with
    | false =>
      rw [hu_f hob]
      rw [find_eq_nil_of s' md' tag_name hob]
      simp
    | true =>
      rw [hu_t hob]
      exact not_mem_find_filtered s' md' tag_name target mu' hm' hob
  · intro hnone
    cases hob : objExistsAttr s' (pointer.get_name s' md'._meta_pointer)
        ("usertag" ++ tag_name) with
    | false => exact hu_f hob
    | true =>
      rw [hu_t hob]
      have hfe : s'.connections.filter (fun c =>
          !(c.2.node == mu' && c.2.attr == "usertag" ++ tag_name
            && (nameOf s' c.1.node == target))) = s'.connections := by
        apply List.filter_eq_self.mpr
        intro c hc
        cases hq : (c.2.node == mu' && c.2.attr == ("usertag" ++ tag_name)
            && (nameOf s' c.1.node == target)) with
        | false => simp [hq]
        | true =>
          exfalso
          simp only [Bool.and_eq_true, beq_iff_eq] at hq
          exact hnone c hc ⟨hq.1.1, hq.1.2, hq.2⟩
      rw [hfe]

/-- Witness for C5 on `sceneTagged`, where the `grp` label holds two
duplicate links to `thing`: tagging `thing` makes `find` return it,
untagging removes both duplicate links and `find` no longer returns it,
and untag is a no-op when nothing matches. -/
theorem C5_witness :
    ((sceneTagged.nodes.map Prod.fst).Nodup
      ∧ uidOf sceneTagged (pointer.get_name sceneTagged mdCube._meta_pointer) = some 1
      ∧ uidOf sceneTagged "thing" = some 2)
    ∧ ((∃ s1, Metadata.tag sceneTagged mdCube "grp" "thing" = .ok s1
        ∧ "thing" ∈ Metadata.find s1 mdCube "grp")
      ∧ (objExistsAttr sceneTagged
          (pointer.get_name sceneTagged mdCube._meta_pointer)
          ("usertag" ++ "grp") = true →
        Metadata.untag sceneTagged mdCube "grp" "thing" =
          { sceneTagged with connections := sceneTagged.connections.filter (fun c =>
              !(c.2.node == 1 && c.2.attr == "usertag" ++ "grp"
                && (nameOf sceneTagged c.1.node == "thing"))) })
      ∧ (objExistsAttr sceneTagged
          (pointer.get_name sceneTagged mdCube._meta_pointer)
          ("usertag" ++ "grp") = false →
        Metadata.untag sceneTagged mdCube "grp" "thing" = sceneTagged)
      ∧ "thing" ∉ Metadata.find
          (Metadata.untag sceneTagged mdCube "grp" "thing") mdCube "grp"
      ∧ ((∀ c ∈ sceneTagged.connections,
            ¬(c.2.node = 1 ∧ c.2.attr = "usertag" ++ "grp"
              ∧ nameOf sceneTagged c.1.node = "thing")) →
        Metadata.untag sceneTagged mdCube "grp" "thing" = sceneTagged)) :=
  ⟨⟨by decide, by decide, by decide⟩,
    C5_tag_untag_round_trip sceneTagged mdCube "grp" "thing" 1 2
      sceneTagged mdCube 1 (by decide) (by decide) (by decide) (by decide)⟩

/-- C6: tag set semantics — tagging the same target twice under one
label creates two links under that label, yet `find` returns a
de-duplicated collection containing the target exactly once. -/
theorem C6_duplicate_tag_two_links_find_once
    (s : Scene) (md : Metadata) (tag_name target : String) (mu tu : Nat)
    (hnd : (s.nodes.map Prod.fst).Nodup)
    (hm : uidOf s (pointer.get_name s md._meta_pointer) = some mu)
    (ht : uidOf s target = some tu) :
    ∃ s1 s2, Metadata.tag s md tag_name target = .ok s1
      ∧ Metadata.tag s1 md tag_name target = .ok s2
      ∧ (tagLinks s2 mu ("usertag" ++ tag_name)).length
          = (tagLinks s mu ("usertag" ++ tag_name)).length + 2
      ∧ (Metadata.find s2 md tag_name).count target = 1 := by
  obtain ⟨s1, htag1, hn1, _, _, hconn1, hex1, _, _⟩ :=
    tag_ok s md tag_name target mu tu hm ht
  have hget1 : pointer.get_name s1 md._meta_pointer
      = pointer.get_name s md._meta_pointer := get_name_eq_of_nodes hn1 _
  have hm1 : uidOf s1 (pointer.get_name s1 md._meta_pointer) = some mu := by
    rw [hget1, uidOf_eq_of_nodes hn1]
    exact hm
  have ht1 : uidOf s1 target = some tu := by
    rw [uidOf_eq_of_nodes hn1]
    exact ht
  obtain ⟨s2, htag2, hn2, _, _, hconn2, hex2, _, _⟩ :=
    tag_ok s1 md tag_name target mu tu hm1 ht1
  refine ⟨s1, s2, htag1, htag2, ?_, ?_⟩
  · unfold tagLinks
    rw [hconn2, hconn1, List.filter_append, List.filter_append]
    simp
  · have hget2 : pointer.get_name s2 md._meta_pointer
        = pointer.get_name s1 md._meta_pointer := get_name_eq_of_nodes hn2 _
    have hm2 : uidOf s2 (pointer.get_name s2 md._meta_pointer) = some mu := by
      rw [hget2, uidOf_eq_of_nodes hn2]
      exact hm1
    have hex2b : objExistsAttr s2 (pointer.get_name s2 md._meta_pointer)
        ("usertag" ++ tag_name) = true := by
      rw [hget2]
      exact hex2
    rw [find_eq_of s2 md tag_name mu hm2 hex2b]
    apply List.count_eq_one_of_mem (List.nodup_dedup _)
    rw [List.mem_dedup]
    apply List.mem_map.mpr
    refine ⟨(⟨tu, "message", none⟩,
      ⟨mu, "usertag" ++ tag_name,
       some (nextTagIndex s1 (pointer.get_name s1 md._meta_pointer)
         ("usertag" ++ tag_name))⟩), ?_, ?_⟩
    · apply List.mem_filter.mpr
      refine ⟨?_, by simp⟩
      rw [hconn2]
      simp
    · show nameOf s2 tu = target
      rw [nameOf_eq_of_nodes hn2, nameOf_eq_of_nodes hn1]
      exact nameOf_eq_of_uidOf hnd ht

/-- Witness for C6 on `sceneTagged` with the fresh label `fresh`. -/
theorem C6_witness :
    ((sceneTagged.nodes.map Prod.fst).Nodup
      ∧ uidOf sceneTagged (pointer.get_name sceneTagged mdCube._meta_pointer) = some 1
      ∧ uidOf sceneTagged "thing" = some 2)
    ∧ (∃ s1 s2, Metadata.tag sceneTagged mdCube "fresh" "thing" = .ok s1
      ∧ Metadata.tag s1 mdCube "fresh" "thing" = .ok s2
      ∧ (tagLinks s2 1 ("usertag" ++ "fresh")).length
          = (tagLinks sceneTagged 1 ("usertag" ++ "fresh")).length + 2
      ∧ (Metadata.find s2 mdCube "fresh").count "thing" = 1) :=
  ⟨⟨by decide, by decide, by decide⟩,
    C6_duplicate_tag_two_links_find_once sceneTagged mdCube "fresh" "thing" 1 2
      (by decide) (by decide) (by decide)⟩

/-- C8: tag append stability — with the tag attribute already present
(its link set occupying a possibly sparse set of element indices), `tag`
appends the new link at one past the highest in-use index, which is a
free slot, and every existing link keeps its index and target (the old
connection list is a prefix of the new one). -/
theorem C8_tag_appends_at_free_slot
    (s : Scene) (md : Metadata) (tag_name target : String) (mu tu : Nat)
    (hm : uidOf s (pointer.get_name s md._meta_pointer) = some mu)
    (ht : uidOf s target = some tu)
    (hob : objExistsAttr s (pointer.get_name s md._meta_pointer)
      ("usertag" ++ tag_name) = true) :
    ∃ s1, Metadata.tag s md tag_name target = .ok s1
      ∧ s1.connections = s.connections ++
          [(⟨tu, "message", none⟩,
            ⟨mu, "usertag" ++ tag_name,
             some (nextTagIndex s (pointer.get_name s md._meta_pointer)
               ("usertag" ++ tag_name))⟩)]
      ∧ nextTagIndex s (pointer.get_name s md._meta_pointer) ("usertag" ++ tag_name)
          ∉ usedIndices s (pointer.get_name s md._meta_pointer)
              ("usertag" ++ tag_name)
      ∧ (∀ c ∈ s.connections, c ∈ s1.connections)
      ∧ s1.declaredAttrs = s.declaredAttrs := by
  obtain ⟨s1, htag, _, _, _, hconn, _, _, hsame⟩ :=
    tag_ok s md tag_name target mu tu hm ht
  refine ⟨s1, htag, hconn, nextTagIndex_not_mem _ _ _, ?_, hsame hob⟩
  intro c hc
  rw [hconn]
  exact List.mem_append.mpr (Or.inl hc)

/-- Witness for C8 on `sceneTagged`, whose `usertaggrp` attribute already
occupies indices 0 and 1: the new link lands at index 2. -/
theorem C8_witness :
    (uidOf sceneTagged (pointer.get_name sceneTagged mdCube._meta_pointer) = some 1
      ∧ uidOf sceneTagged "thing" = some 2
      ∧ objExistsAttr sceneTagged
          (pointer.get_name sceneTagged mdCube._meta_pointer)
          ("usertag" ++ "grp") = true)
    ∧ (∃ s1, Metadata.tag sceneTagged mdCube "grp" "thing" = .ok s1
      ∧ s1.connections = sceneTagged.connections ++
          [(⟨2, "message", none⟩,
            ⟨1, "usertag" ++ "grp",
             some (nextTagIndex sceneTagged
               (pointer.get_name sceneTagged mdCube._meta_pointer)
               ("usertag" ++ "grp"))⟩)]
      ∧ nextTagIndex sceneTagged
          (pointer.get_name sceneTagged mdCube._meta_pointer) ("usertag" ++ "grp")
          ∉ usedIndices sceneTagged
              (pointer.get_name sceneTagged mdCube._meta_pointer)
              ("usertag" ++ "grp")
      ∧ (∀ c ∈ sceneTagged.connections, c ∈ s1.connections)
      ∧ s1.declaredAttrs = sceneTagged.declaredAttrs) :=
  ⟨⟨by decide, by decide, by decide⟩,
    C8_tag_appends_at_free_slot sceneTagged mdCube "grp" "thing" 1 2
      (by decide) (by decide) (by decide)⟩

/-- C9: missing label — on a freshly created record (both data tiers
initialised to the empty map), `get` of any label returns none, and
`find` of any tag label with no tagged nodes returns the empty list
rather than failing. -/
theorem C9_missing_label (s : Scene) (md : Metadata) (label tag_name : String)
    (mu : Nat)
    (hm : uidOf s (pointer.get_name s md._meta_pointer) = some mu)
    (hp : lookupStringAttr s.stringAttrs (mu, "persistentData")
      = some (Stored.obj []))
    (htr : lookupStringAttr s.stringAttrs (mu, "transientData")
      = some (Stored.obj []))
    (hno : s.connections.filter (fun c =>
      c.2.node == mu && c.2.attr == "usertag" ++ tag_name) = []) :
    Metadata.get s md label = .ok none
    ∧ Metadata.find s md tag_name = [] := by
  constructor
  · simp only [Metadata.get, Bind.bind, Except.bind, getAttrStoredE, hm, hp, htr]
    simp [jsonLoads, dictUpdateRawText, dictGet, pure, Except.pure]
  · cases hob : objExistsAttr s (pointer.get_name s md._meta_pointer)
        ("usertag" ++ tag_name) with
    | false => exact find_eq_nil_of s md tag_name hob
    | true =>
      rw [find_eq_of s md tag_name mu hm hob, hno]
      simp

/-- Witness for C9 on `sceneTagged` (both tiers empty) with the unused
label `nope`. -/
theorem C9_witness :
    (uidOf sceneTagged (pointer.get_name sceneTagged mdCube._meta_pointer) = some 1
      ∧ lookupStringAttr sceneTagged.stringAttrs (1, "persistentData")
          = some (Stored.obj [])
      ∧ lookupStringAttr sceneTagged.stringAttrs (1, "transientData")
          = some (Stored.obj [])
      ∧ sceneTagged.connections.filter (fun c =>
          c.2.node == 1 && c.2.attr == "usertag" ++ "nope") = [])
    ∧ (Metadata.get sceneTagged mdCube "nope" = .ok none
      ∧ Metadata.find sceneTagged mdCube "nope" = []) :=
  ⟨⟨by decide, by decide, by decide, by decide⟩,
    C9_missing_label sceneTagged mdCube "nope" "nope" 1
      (by decide) (by decide) (by decide) (by decide)⟩

/-- C10: constructing a `Metadata` instance directly for a host node
that has no attached metanode raises a not-found error: the metanode
lookup yields the empty name and resolving `""` to a pointer fails, so
`__init__` neither returns a record nor creates one. -/
theorem C10_init_without_metanode_raises (s : Scene) (node : String) (hu : Nat)
    (hh : uidOf s node = some hu)
    (hmn : Metadata.get_metanode s node = .ok "")
    (hempty : uidOf s "" = none) :
    Metadata.init s node = .error ("Could not find node " ++ "") := by
  simp only [Metadata.init, Bind.bind, Except.bind, pointer.get_pointer,
    hh, hmn, hempty]

/-- Witness for C10 on `sceneHostOnly`, whose single node `cube` has no
metadata. -/
theorem C10_witness :
    (uidOf sceneHostOnly "cube" = some 0
      ∧ Metadata.get_metanode sceneHostOnly "cube" = .ok ""
      ∧ uidOf sceneHostOnly "" = none)
    ∧ Metadata.init sceneHostOnly "cube"
        = .error ("Could not find node " ++ "") :=
  ⟨⟨by decide, by decide, by decide⟩,
    C10_init_without_metanode_raises sceneHostOnly "cube" 0
      (by decide) (by decide) (by decide)⟩

end Synaptic
